import Mathlib

/-!
Shallow embedding of `src/main.py` (a small FastAPI weather app) and proofs
about its operations.

Modelling choices:
* SQL rows become Lean structures; a table is a `List` of rows kept in
  insertion order (SQLite returns rows in rowid order for these queries).
* `datetime` values are seconds since an epoch (`Nat`); the 15-minute
  `timedelta` is 900 seconds.  Python compares `now - updated_at >
  timedelta(minutes=15)`; for `updated_at` in the future the timedelta is
  negative and the test is false, which matches truncated `Nat` subtraction
  (`now - t = 0`), so `Nat` arithmetic is faithful.
* floats (coordinates, temperatures) become `Rat`; the code only stores and
  compares them.
* SQLite assigns a fresh rowid `max(existing id) + 1` (1 on an empty table)
  to inserted rows; `nextId` models that.
* The network is an oracle `net : Rat → Rat → Option Response` giving, per
  `(latitude, longitude)` request URL, either `none` (timeout / connection
  error: `session.get` raised) or `some r` with the HTTP status and an
  optional parsed `current_weather.temperature` field (`none` = body that
  raises on `data['current_weather']['temperature']`).
-/

namespace WeatherApp

/-- Row of the `cities` table (class `City` in main.py). -/
structure City where
  id : Nat
  name : String
  latitude : Rat
  longitude : Rat
  temperature : Option Rat
  updated_at : Option Nat
deriving DecidableEq, Repr

/-- Row of the `default_cities` table (class `DefaultCity` in main.py). -/
structure DefaultCity where
  id : Nat
  name : String
  latitude : Rat
  longitude : Rat
deriving DecidableEq, Repr

/-- One parsed row of `cities.csv` (columns `city`, `latitude`, `longitude`). -/
structure SeedRow where
  city : String
  latitude : Rat
  longitude : Rat
deriving DecidableEq, Repr

/-- The persistent database state: both tables. -/
structure Store where
  cities : List City
  defaultCities : List DefaultCity
deriving DecidableEq, Repr

/-- HTTP response for one weather request: status code and, when the body
parses and has the field `current_weather.temperature`, that temperature. -/
structure Response where
  status : Nat
  body : Option Rat
deriving DecidableEq, Repr

/-- SQLite rowid assignment for an INTEGER PRIMARY KEY without AUTOINCREMENT:
one larger than the largest existing id, 1 for an empty table. -/
def nextId (cs : List City) : Nat :=
  (cs.map City.id).foldr max 0 + 1

/-- `add_city` endpoint (main.py lines 149-155): insert a new `City` row
unless some existing row has exactly the same name. -/
def add_city (name : String) (lat lon : Rat) (s : Store) : Store :=
  if s.cities.any (fun c => c.name = name) then s
  else { s with cities := s.cities ++ [⟨nextId s.cities, name, lat, lon, none, none⟩] }

/-- `remove_city` endpoint (main.py lines 140-146): delete the first `City`
row with the given id, if any. -/
def remove_city (city_id : Nat) (s : Store) : Store :=
  { s with cities := s.cities.eraseP (fun c => c.id == city_id) }

/-- Sequential insertion of parsed CSV rows into an emptied `default_cities`
table (main.py lines 56-62); ids are assigned 1, 2, ... by SQLite. -/
def seedDefaults (nid : Nat) : List SeedRow → List DefaultCity
  | [] => []
  | r :: rs => ⟨nid, r.city, r.latitude, r.longitude⟩ :: seedDefaults (nid + 1) rs

/-- Sequential insertion of one `City` row per `DefaultCity` row into an
emptied `cities` table (main.py lines 66-68 and 133-135); temperature and
timestamp are left unset, ids are assigned 1, 2, ... by SQLite. -/
def seedCities (nid : Nat) : List DefaultCity → List City
  | [] => []
  | d :: ds => ⟨nid, d.name, d.latitude, d.longitude, none, none⟩ :: seedCities (nid + 1) ds

/-- `reset_cities` endpoint (main.py lines 129-137): delete every `City` row
and reinsert one row per `DefaultCity` row, in table order. -/
def reset_cities (s : Store) : Store :=
  { s with cities := seedCities 1 s.defaultCities }

/-- Startup `lifespan` (main.py lines 43-75).  The session is created with
`autocommit=False`; `db.commit()` is reached only inside the
`if os.path.exists(csv_path)` branch, and `db.close()` in the `finally`
block rolls back any uncommitted work.  Hence when the CSV file is missing
(`seed = none`) the two buffered `delete()` calls are rolled back and the
store is unchanged; a parse error raised mid-loop likewise strikes before
the first commit and rolls everything back, so it is also covered by
`none`.  When the file is present and parses (`seed = some rows`) both
deletes and both insert loops commit. -/
def lifespan (seed : Option (List SeedRow)) (s : Store) : Store :=
  match seed with
  | none => s
  | some rows =>
      let defaults := seedDefaults 1 rows
      { cities := seedCities 1 defaults, defaultCities := defaults }

/-- `fetch_weather` (main.py lines 91-100) for a single city, given the
network's answer to the request URL built from this city's coordinates.
The function is total: every failure path lands on `(city_id, none)`, the
bare `except` swallowing timeouts, connection errors, non-JSON bodies and
missing fields, and a non-200 status falls through to the final return. -/
def fetch_weather (city_id : Nat) (resp : Option Response) : Nat × Option Rat :=
  match resp with
  | none => (city_id, none)
  | some r =>
      if r.status = 200 then
        match r.body with
        | some t => (city_id, some t)
        | none => (city_id, none)
      else (city_id, none)

/-- The fan-out/fan-in of main.py lines 119-121: one `fetch_weather` task per
city, results gathered in task order (`asyncio.gather` preserves order). -/
def fetchAll (net : Rat → Rat → Option Response) (cities : List City) :
    List (Nat × Option Rat) :=
  cities.map (fun c => fetch_weather c.id (net c.latitude c.longitude))

/-- The staleness test of main.py line 116:
`not c.updated_at or (now - c.updated_at) > timedelta(minutes=15)`. -/
def isStale (now : Nat) (c : City) : Bool :=
  c.updated_at.isNone || decide (900 < now - c.updated_at.getD 0)

/-- One iteration of the write-back loop (main.py lines 122-124): a result
with a temperature updates every `City` row with that id; a `None`
temperature is skipped. -/
def applyResult (now : Nat) (cs : List City) (r : Nat × Option Rat) : List City :=
  match r.2 with
  | some t =>
      cs.map (fun c =>
        if c.id = r.1 then { c with temperature := some t, updated_at := some now } else c)
  | none => cs

/-- The whole write-back loop over the gathered results. -/
def applyResults (now : Nat) (rs : List (Nat × Option Rat)) (cs : List City) : List City :=
  rs.foldl (applyResult now) cs

/-- `update_weather` endpoint (main.py lines 111-126).  `now` is captured
once at the start of the invocation.  Besides the resulting store we record
the ids of the cities for which a `fetch_weather` task was created, so that
"no fetch is performed" is observable; when the eligible list is empty the
`if to_update:` guard skips the network entirely. -/
def update_weather (net : Rat → Rat → Option Response) (now : Nat) (s : Store) :
    Store × List Nat :=
  let to_update := s.cities.filter (isStale now)
  if to_update.isEmpty then (s, [])
  else
    ({ s with cities := applyResults now (fetchAll net to_update) s.cities },
     to_update.map City.id)

/-- `db.query(City).all()`: the stored city list. -/
def list_cities (s : Store) : List City :=
  s.cities

/-- The Python sort key of main.py line 107:
`(x.temperature is None, -(x.temperature or 0))`.  (`x.temperature or 0`
is `0` exactly when the temperature is `None` or `0.0`, so `getD 0` is
faithful.) -/
def sortKey (c : City) : Bool × Rat :=
  (c.temperature.isNone, -(c.temperature.getD 0))

/-- Python's ascending tuple comparison on sort keys (`False < True`). -/
def keyLe (a b : Bool × Rat) : Bool :=
  (!a.1 && b.1) || (a.1 == b.1 && decide (a.2 ≤ b.2))

/-- `read_root` (main.py lines 103-108): the city list sorted by the key,
ascending, with a stable sort (Python's `sorted`). -/
def read_root (s : Store) : List City :=
  s.cities.mergeSort (fun a b => keyLe (sortKey a) (sortKey b))

/-- Spec-side eligibility predicate, written from the spec's words: a city is
eligible for refresh iff its updated-timestamp is unset or strictly older
than 15 minutes (900 seconds) relative to `now`. -/
def specEligibleB (now : Nat) (c : City) : Bool :=
  match c.updated_at with
  | none => true
  | some t => decide (t + 900 < now)

/-- Spec-side presentation order, written from the spec's words: temperature
descending, cities with unset temperature after every city that has one
(ties broken arbitrarily, so equal temperatures are unconstrained). -/
def specOrder (a b : City) : Prop :=
  (a.temperature = none → b.temperature = none) ∧
  ∀ ta tb, a.temperature = some ta → b.temperature = some tb → tb ≤ ta

/-- The per-city effect of one refresh invocation, read off the code: an
eligible city gets the fetched temperature and the invocation's `now` when
the fetch produced data, and is untouched otherwise. -/
def expectedUpdate (net : Rat → Rat → Option Response) (now : Nat) (c : City) : City :=
  if isStale now c then
    match (fetch_weather c.id (net c.latitude c.longitude)).2 with
    | some t => { c with temperature := some t, updated_at := some now }
    | none => c
  else c

/-- The effect of one write-back result on one city row (proof plumbing:
`applyResult` maps this over the whole table). -/
def stepCity (now : Nat) (c : City) (r : Nat × Option Rat) : City :=
  match r.2 with
  | some t => if c.id = r.1 then { c with temperature := some t, updated_at := some now } else c
  | none => c

/-- A store with no rows at all, used for concrete witnesses. -/
def emptyStore : Store :=
  ⟨[], []⟩

/-- A network oracle on which every request fails. -/
def netNone : Rat → Rat → Option Response :=
  fun _ _ => none

/-- A network oracle answering every request with status 200 and 5 degrees. -/
def netHot : Rat → Rat → Option Response :=
  fun _ _ => some ⟨200, some 5⟩

/-- A never-fetched city, used for concrete witnesses. -/
def cityA : City :=
  ⟨1, "A", 1, 2, none, none⟩

/-- A store holding only `cityA`. -/
def storeA : Store :=
  ⟨[cityA], []⟩

/-- A recently fetched city (updated at t = 500). -/
def cityFresh : City :=
  ⟨1, "A", 1, 2, some 3, some 500⟩

/-- A store holding only `cityFresh`. -/
def storeFresh : Store :=
  ⟨[cityFresh], []⟩

theorem fetch_weather_fst (city_id : Nat) (resp : Option Response) :
    (fetch_weather city_id resp).1 = city_id := by
  rcases resp with _ | ⟨st, body⟩
  · rfl
  · by_cases h : st = 200
    · cases body <;> simp [fetch_weather, h]
    · simp [fetch_weather, h]

theorem isStale_eq_specEligibleB (now : Nat) (c : City) :
    isStale now c = specEligibleB now c := by
  rcases hu : c.updated_at with _ | t
  · simp [isStale, specEligibleB, hu]
  · simp only [isStale, specEligibleB, hu, Option.isNone_some, Option.getD_some,
      Bool.false_or]
    exact decide_eq_decide.mpr (by omega)

theorem stepCity_id (now : Nat) (c : City) (r : Nat × Option Rat) :
    (stepCity now c r).id = c.id := by
  rcases r with ⟨i, _ | t⟩
  · rfl
  · by_cases h : c.id = i <;> simp [stepCity, h]

theorem stepCity_name (now : Nat) (c : City) (r : Nat × Option Rat) :
    (stepCity now c r).name = c.name := by
  rcases r with ⟨i, _ | t⟩
  · rfl
  · by_cases h : c.id = i <;> simp [stepCity, h]

theorem applyResult_eq_map (now : Nat) (cs : List City) (r : Nat × Option Rat) :
    applyResult now cs r = cs.map (fun c => stepCity now c r) := by
  rcases r with ⟨i, _ | t⟩
  · simp [applyResult, stepCity]
  · simp [applyResult, stepCity]

theorem applyResults_eq_map (now : Nat) (rs : List (Nat × Option Rat)) (cs : List City) :
    applyResults now rs cs = cs.map (fun c => rs.foldl (stepCity now) c) := by
  induction rs generalizing cs with
  | nil => simp [applyResults]
  | cons r rs ih =>
      simp only [applyResults, List.foldl_cons] at *
      rw [applyResult_eq_map, ih, List.map_map]
      rfl

theorem foldl_stepCity_no_match (now : Nat) (rs : List (Nat × Option Rat)) (c : City)
    (h : ∀ r ∈ rs, r.1 ≠ c.id) : rs.foldl (stepCity now) c = c := by
  induction rs with
  | nil => rfl
  | cons r rs ih =>
      have hr : r.1 ≠ c.id := h r (List.mem_cons_self r rs)
      have hstep : stepCity now c r = c := by
        rcases r with ⟨i, _ | t⟩
        · rfl
        · have hne : ¬ c.id = i := fun h' => hr h'.symm
          simp [stepCity, hne]
      rw [List.foldl_cons, hstep]
      exact ih (fun r' hr' => h r' (List.mem_cons_of_mem r hr'))

theorem foldl_stepCity_name (now : Nat) (rs : List (Nat × Option Rat)) (c : City) :
    (rs.foldl (stepCity now) c).name = c.name := by
  induction rs generalizing c with
  | nil => rfl
  | cons r rs ih => rw [List.foldl_cons, ih, stepCity_name]

theorem foldl_fetch_not_mem (net : Rat → Rat → Option Response) (now : Nat)
    (tu : List City) (c : City) (h : ∀ c' ∈ tu, c'.id ≠ c.id) :
    (fetchAll net tu).foldl (stepCity now) c = c := by
  apply foldl_stepCity_no_match
  intro r hr
  simp only [fetchAll, List.mem_map] at hr
  obtain ⟨c', hc', rfl⟩ := hr
  rw [fetch_weather_fst]
  exact h c' hc'

theorem foldl_fetch_mem (net : Rat → Rat → Option Response) (now : Nat)
    (tu : List City) (c : City) (hnd : (tu.map City.id).Nodup) (hmem : c ∈ tu) :
    (fetchAll net tu).foldl (stepCity now) c =
      match (fetch_weather c.id (net c.latitude c.longitude)).2 with
      | some t => { c with temperature := some t, updated_at := some now }
      | none => c := by
  obtain ⟨l1, l2, hsplit⟩ := List.append_of_mem hmem
  subst hsplit
  simp only [List.map_append, List.map_cons] at hnd
  have hparts := List.nodup_append.mp hnd
  have h2 : c.id ∉ l2.map City.id := (List.nodup_cons.mp hparts.2.1).1
  have h1 : c.id ∉ l1.map City.id := fun hc1 => hparts.2.2 hc1 (List.mem_cons_self _ _)
  simp only [fetchAll, List.map_append, List.map_cons, List.foldl_append, List.foldl_cons]
  rw [foldl_stepCity_no_match now _ c ?nomatch1]
  case nomatch1 =>
    intro r hr
    simp only [List.mem_map] at hr
    obtain ⟨c1, hc1, rfl⟩ := hr
    rw [fetch_weather_fst]
    intro he
    exact h1 (he ▸ List.mem_map_of_mem City.id hc1)
  rcases hfc : (fetch_weather c.id (net c.latitude c.longitude)).2 with _ | t
  · have hone : stepCity now c (fetch_weather c.id (net c.latitude c.longitude)) = c := by
      simp [stepCity, hfc]
    rw [hone]
    apply foldl_stepCity_no_match
    intro r hr
    simp only [List.mem_map] at hr
    obtain ⟨c2, hc2, rfl⟩ := hr
    rw [fetch_weather_fst]
    intro he
    exact h2 (he ▸ List.mem_map_of_mem City.id hc2)
  · have hone : stepCity now c (fetch_weather c.id (net c.latitude c.longitude)) =
        { c with temperature := some t, updated_at := some now } := by
      simp [stepCity, hfc, fetch_weather_fst]
    rw [hone]
    apply foldl_stepCity_no_match
    intro r hr
    simp only [List.mem_map] at hr
    obtain ⟨c2, hc2, rfl⟩ := hr
    rw [fetch_weather_fst]
    intro he
    exact h2 (he ▸ List.mem_map_of_mem City.id hc2)

theorem update_weather_cities_eq (net : Rat → Rat → Option Response) (now : Nat)
    (s : Store) (hid : (s.cities.map City.id).Nodup) :
    ((update_weather net now s).1).cities = s.cities.map (expectedUpdate net now) := by
  have hsub : List.Sublist (s.cities.filter (isStale now)) s.cities := List.filter_sublist _
  have hnd : ((s.cities.filter (isStale now)).map City.id).Nodup :=
    (hsub.map City.id).nodup hid
  by_cases he : (s.cities.filter (isStale now)).isEmpty
  · have hnil : s.cities.filter (isStale now) = [] := by simpa using he
    have hall : ∀ c ∈ s.cities, ¬ isStale now c = true := by
      rw [List.filter_eq_nil_iff] at hnil
      exact hnil
    have h1 : (update_weather net now s).1 = s := by
      simp [update_weather, hnil]
    rw [h1]
    have hfix : s.cities.map (expectedUpdate net now) = s.cities.map id :=
      List.map_congr_left (fun c hc => by simp [expectedUpdate, hall c hc])
    rw [hfix, List.map_id]
  · have h1 : (update_weather net now s).1 =
        { s with cities := applyResults now (fetchAll net (s.cities.filter (isStale now))) s.cities } := by
      simp [update_weather, he]
    rw [h1]
    show applyResults now (fetchAll net (s.cities.filter (isStale now))) s.cities =
      s.cities.map (expectedUpdate net now)
    rw [applyResults_eq_map]
    apply List.map_congr_left
    intro c hc
    by_cases hst : isStale now c = true
    · have hmem : c ∈ s.cities.filter (isStale now) := List.mem_filter.mpr ⟨hc, hst⟩
      rw [foldl_fetch_mem net now _ c hnd hmem]
      simp [expectedUpdate, hst]
    · have hno : ∀ c' ∈ s.cities.filter (isStale now), c'.id ≠ c.id := by
        intro c' hc' hidq
        obtain ⟨hc'm, hst'⟩ := List.mem_filter.mp hc'
        have hcc : c' = c := List.inj_on_of_nodup_map hid hc'm hc hidq
        exact hst (hcc ▸ hst')
      rw [foldl_fetch_not_mem net now _ c hno]
      simp [expectedUpdate, hst]

theorem seedCities_map_fields (nid : Nat) (ds : List DefaultCity) :
    (seedCities nid ds).map
        (fun c => (c.name, c.latitude, c.longitude, c.temperature, c.updated_at)) =
      ds.map (fun d => (d.name, d.latitude, d.longitude, (none : Option Rat), (none : Option Nat))) := by
  induction ds generalizing nid with
  | nil => rfl
  | cons d ds ih => simp [seedCities, ih]

theorem seedCities_map_name (nid : Nat) (ds : List DefaultCity) :
    (seedCities nid ds).map City.name = ds.map DefaultCity.name := by
  induction ds generalizing nid with
  | nil => rfl
  | cons d ds ih => simp [seedCities, ih]

theorem seedDefaults_map_fields (nid : Nat) (rows : List SeedRow) :
    (seedDefaults nid rows).map (fun d => (d.name, d.latitude, d.longitude)) =
      rows.map (fun r => (r.city, r.latitude, r.longitude)) := by
  induction rows generalizing nid with
  | nil => rfl
  | cons r rs ih => simp [seedDefaults, ih]

theorem add_city_noop (name : String) (lat lon : Rat) (s : Store)
    (hany : (s.cities.any (fun c => c.name = name)) = true) :
    add_city name lat lon s = s := by
  simp [add_city, hany]

theorem add_city_insert (name : String) (lat lon : Rat) (s : Store)
    (hany : (s.cities.any (fun c => c.name = name)) = false) :
    (add_city name lat lon s).cities =
      s.cities ++ [⟨nextId s.cities, name, lat, lon, none, none⟩] := by
  simp [add_city, hany]

theorem update_weather_map_name (net : Rat → Rat → Option Response) (now : Nat) (s : Store) :
    (((update_weather net now s).1).cities).map City.name = s.cities.map City.name := by
  by_cases he : (s.cities.filter (isStale now)).isEmpty
  · simp [update_weather, he]
  · have h1 : (update_weather net now s).1 =
        { s with cities := applyResults now (fetchAll net (s.cities.filter (isStale now))) s.cities } := by
      simp [update_weather, he]
    rw [h1]
    show (applyResults now (fetchAll net (s.cities.filter (isStale now))) s.cities).map City.name =
      s.cities.map City.name
    rw [applyResults_eq_map, List.map_map]
    exact List.map_congr_left (fun c _ => foldl_stepCity_name now _ c)

theorem keyLe_trans (a b c : Bool × Rat) (hab : keyLe a b = true) (hbc : keyLe b c = true) :
    keyLe a c = true := by
  rcases a with ⟨a1, a2⟩
  rcases b with ⟨b1, b2⟩
  rcases c with ⟨c1, c2⟩
  cases a1 <;> cases b1 <;> cases c1 <;> simp_all [keyLe] <;> linarith

theorem keyLe_total (a b : Bool × Rat) : (keyLe a b || keyLe b a) = true := by
  rcases a with ⟨a1, a2⟩
  rcases b with ⟨b1, b2⟩
  cases a1 <;> cases b1 <;> simp [keyLe] <;> exact le_total a2 b2

theorem keyLe_imp_specOrder (a b : City) (h : keyLe (sortKey a) (sortKey b) = true) :
    specOrder a b := by
  rcases ha : a.temperature with _ | ta <;> rcases hb : b.temperature with _ | tb
  · exact ⟨fun _ => hb, fun ta' tb' h1 _ => by simp [ha] at h1⟩
  · exfalso
    simp [keyLe, sortKey, ha, hb] at h
  · exact ⟨fun h1 => by simp [ha] at h1, fun ta' tb' h1 h2 => by simp [hb] at h2⟩
  · refine ⟨fun h1 => by simp [ha] at h1, fun ta' tb' h1 h2 => ?_⟩
    rw [ha] at h1
    rw [hb] at h2
    injection h1 with e1
    injection h2 with e2
    subst e1
    subst e2
    simp [keyLe, sortKey, ha, hb] at h
    linarith

/-- C1: in every refresh invocation at time `now`, the ids handed to the
Weather Fetcher are exactly those of the cities whose updated-timestamp is
unset or strictly older than 15 minutes relative to `now` (so any city
fetched within the last 15 minutes is excluded), and when that eligible set
is empty no per-city fetch happens and the store is untouched. -/
theorem c1_refresh_eligibility (net : Rat → Rat → Option Response) (now : Nat) (s : Store) :
    (update_weather net now s).2 = (s.cities.filter (specEligibleB now)).map City.id ∧
    (s.cities.filter (specEligibleB now) = [] → update_weather net now s = (s, [])) := by
  have hfe : s.cities.filter (isStale now) = s.cities.filter (specEligibleB now) :=
    List.filter_congr (fun c _ => isStale_eq_specEligibleB now c)
  constructor
  · by_cases he : (s.cities.filter (specEligibleB now)).isEmpty
    · have hnil : s.cities.filter (specEligibleB now) = [] := by simpa using he
      simp [update_weather, hfe, hnil]
    · simp [update_weather, hfe, he]
  · intro hnil
    simp [update_weather, hfe, hnil]

/-- Witness for C1: a city refreshed 500 s ago (now = 1000) is within the
15-minute window, so the refresh makes no fetch and changes nothing. -/
theorem c1_witness : update_weather netNone 1000 storeFresh = (storeFresh, []) :=
  (c1_refresh_eligibility netNone 1000 storeFresh).2 (by decide)

/-- C2: for every refresh invocation and every eligible (fetched) city, a
fetch that returned a temperature sets that city's temperature to it and its
timestamp to the `now` captured at the start of the invocation, while a
fetch that returned no data leaves the city's row completely unchanged. -/
theorem c2_writeback_per_city (net : Rat → Rat → Option Response) (now : Nat) (s : Store)
    (hid : (s.cities.map City.id).Nodup) (c : City) (hc : c ∈ s.cities)
    (hst : isStale now c = true) :
    (∀ t, (fetch_weather c.id (net c.latitude c.longitude)).2 = some t →
        { c with temperature := some t, updated_at := some now } ∈
          ((update_weather net now s).1).cities) ∧
    ((fetch_weather c.id (net c.latitude c.longitude)).2 = none →
        c ∈ ((update_weather net now s).1).cities) := by
  rw [update_weather_cities_eq net now s hid]
  constructor
  · intro t ht
    have hexp : expectedUpdate net now c = { c with temperature := some t, updated_at := some now } := by
      simp [expectedUpdate, hst, ht]
    exact hexp ▸ List.mem_map_of_mem _ hc
  · intro ht
    have hexp : expectedUpdate net now c = c := by
      simp [expectedUpdate, hst, ht]
    exact hexp ▸ List.mem_map_of_mem _ hc

/-- Witness for C2: a never-fetched city whose fetch succeeds with 5 degrees
ends up with temperature 5 and timestamp 100 (the invocation's now). -/
theorem c2_witness :
    (⟨1, "A", 1, 2, some 5, some 100⟩ : City) ∈ ((update_weather netHot 100 storeA).1).cities :=
  (c2_writeback_per_city netHot 100 storeA (by decide) cityA (by decide) (by decide)).1 5 (by decide)

/-- Counterexample for C3: with the seed file missing, the startup
transaction is never committed and is rolled back when the session closes,
so a pre-existing `City` row survives — the tables are NOT cleared. -/
theorem c3_counterexample : (lifespan none storeA).cities ≠ [] := by
  decide

/-- C3 (amended): when the seed file is present and parses, both tables are
cleared, `DefaultCity` is repopulated from the file rows in order, and
`City` is seeded to mirror `DefaultCity` exactly with temperature and
timestamp unset; when the seed file is absent, no commit is reached, the
deletes are rolled back at session close, and the store is left unchanged. -/
theorem c3_startup_seeding (rows : List SeedRow) (s : Store) :
    lifespan none s = s ∧
    (lifespan (some rows) s).defaultCities.map (fun d => (d.name, d.latitude, d.longitude)) =
      rows.map (fun r => (r.city, r.latitude, r.longitude)) ∧
    (lifespan (some rows) s).cities.map
        (fun c => (c.name, c.latitude, c.longitude, c.temperature, c.updated_at)) =
      (lifespan (some rows) s).defaultCities.map
        (fun d => (d.name, d.latitude, d.longitude, (none : Option Rat), (none : Option Nat))) := by
  refine ⟨rfl, seedDefaults_map_fields 1 rows, ?_⟩
  show (seedCities 1 (seedDefaults 1 rows)).map _ = (seedDefaults 1 rows).map _
  exact seedCities_map_fields 1 _

/-- C4: `add_city` inserts a new row exactly when no existing row carries
the same name under case-sensitive string equality (otherwise it is a
no-op), and adding the same name twice leaves exactly one city of that name
in any store whose city names are distinct. -/
theorem c4_add_city_unique (s : Store) (name : String) (lat lon : Rat)
    (hn : (s.cities.map City.name).Nodup) :
    ((∃ c ∈ s.cities, c.name = name) → add_city name lat lon s = s) ∧
    ((¬ ∃ c ∈ s.cities, c.name = name) →
      (add_city name lat lon s).cities =
        s.cities ++ [⟨nextId s.cities, name, lat, lon, none, none⟩]) ∧
    ((add_city name lat lon (add_city name lat lon s)).cities.countP
        (fun c => c.name == name)) = 1 := by
  by_cases hex : ∃ c ∈ s.cities, c.name = name
  · have hany : (s.cities.any (fun c => c.name = name)) = true := by
      simpa [List.any_eq_true] using hex
    have hno : add_city name lat lon s = s := add_city_noop name lat lon s hany
    refine ⟨fun _ => hno, fun hcon => absurd hex hcon, ?_⟩
    rw [hno, hno]
    obtain ⟨c0, hc0, hc0n⟩ := hex
    have hcnt : s.cities.countP (fun c => c.name == name) =
        (s.cities.map City.name).count name := by
      rw [List.count, List.countP_map]
      rfl
    have hle : (s.cities.map City.name).count name ≤ 1 :=
      List.nodup_iff_count_le_one.mp hn name
    have hpos : 0 < (s.cities.map City.name).count name := by
      rw [List.count_pos_iff]
      exact hc0n ▸ List.mem_map_of_mem City.name hc0
    omega
  · have hany : (s.cities.any (fun c => c.name = name)) = false := by
      rw [Bool.eq_false_iff]
      intro hcon
      exact hex (by simpa [List.any_eq_true] using hcon)
    have hadd := add_city_insert name lat lon s hany
    refine ⟨fun hex' => absurd hex' hex, fun _ => hadd, ?_⟩
    have hany2 : ((add_city name lat lon s).cities.any (fun c => c.name = name)) = true := by
      rw [hadd]
      simp
    rw [add_city_noop name lat lon _ hany2, hadd, List.countP_append]
    have h0 : s.cities.countP (fun c => c.name == name) = 0 := by
      rw [List.countP_eq_zero]
      intro c hc
      simp only [beq_iff_eq]
      exact fun he => hex ⟨c, hc, by simpa using he⟩
    simp [h0]

/-- Witness for C4: adding "X" twice to the empty store yields exactly one
city named "X". -/
theorem c4_witness :
    ((add_city "X" 1 2 (add_city "X" 1 2 emptyStore)).cities.countP
      (fun c => c.name == "X")) = 1 :=
  (c4_add_city_unique emptyStore "X" 1 2 (by decide)).2.2

/-- C5: `reset_cities` replaces the city table with one row per
`DefaultCity` row in table order, so a subsequent `list_cities` returns
exactly the default set with temperature and timestamp unset everywhere. -/
theorem c5_reset_mirrors_defaults (s : Store) :
    (list_cities (reset_cities s)).map
        (fun c => (c.name, c.latitude, c.longitude, c.temperature, c.updated_at)) =
      s.defaultCities.map
        (fun d => (d.name, d.latitude, d.longitude, (none : Option Rat), (none : Option Nat))) :=
  seedCities_map_fields 1 s.defaultCities

/-- C6: a single-city fetch yields a temperature exactly when the HTTP
response has status 200 and a body carrying the temperature field; every
failure (timeout or network error `resp = none`, non-200 status, malformed
body) yields the explicit no-data pair, and the function is total, so no
error ever reaches the caller. -/
theorem c6_fetch_success_iff (city_id : Nat) (resp : Option Response) (t : Rat) :
    ((fetch_weather city_id resp).2 = some t ↔ resp = some ⟨200, some t⟩) ∧
    (fetch_weather city_id resp).1 = city_id := by
  refine ⟨?_, fetch_weather_fst city_id resp⟩
  rcases resp with _ | ⟨st, body⟩
  · simp [fetch_weather]
  · by_cases h : st = 200
    · subst h
      rcases body with _ | t' <;> simp [fetch_weather]
    · simp [fetch_weather, h, Response.mk.injEq]

/-- Counterexample for C7: `add_city` accepts the empty string, so the
store can hold a city whose display name is empty. -/
theorem c7_counterexample : ∃ c ∈ (add_city "" 1 2 emptyStore).cities, c.name = "" := by
  decide

/-- C7 (amended): name uniqueness — not non-emptiness — is the invariant the
code maintains: starting from a store with pairwise-distinct city names (and
distinct seed names), every operation returns a city table with
pairwise-distinct names. -/
theorem c7_name_unique_invariant (net : Rat → Rat → Option Response) (now : Nat)
    (i : Nat) (n : String) (la lo : Rat) (s : Store)
    (hn : (s.cities.map City.name).Nodup)
    (hd : (s.defaultCities.map DefaultCity.name).Nodup) :
    ((add_city n la lo s).cities.map City.name).Nodup ∧
    ((remove_city i s).cities.map City.name).Nodup ∧
    ((reset_cities s).cities.map City.name).Nodup ∧
    (((update_weather net now s).1).cities.map City.name).Nodup := by
  refine ⟨?_, ?_, ?_, ?_⟩
  · by_cases h : (s.cities.any (fun c => c.name = n)) = true
    · rw [add_city_noop n la lo s h]
      exact hn
    · have hany : (s.cities.any (fun c => c.name = n)) = false := by
        rwa [Bool.not_eq_true] at h
      have hnot : n ∉ s.cities.map City.name := by
        intro hmem
        obtain ⟨c, hc, hcn⟩ := List.mem_map.mp hmem
        have : (s.cities.any (fun c => c.name = n)) = true :=
          List.any_eq_true.mpr ⟨c, hc, by simpa using hcn⟩
        rw [hany] at this
        cases this
      rw [add_city_insert n la lo s hany]
      simp [List.nodup_append, hn, hnot]
  · have hsub : List.Sublist ((remove_city i s).cities) s.cities := List.eraseP_sublist _
    exact (hsub.map City.name).nodup hn
  · show ((seedCities 1 s.defaultCities).map City.name).Nodup
    rw [seedCities_map_name]
    exact hd
  · rw [update_weather_map_name]
    exact hn

/-- Witness for C7 (amended): the invariant instantiated on the empty store. -/
theorem c7_witness :
    ((add_city "A" 1 2 emptyStore).cities.map City.name).Nodup ∧
    ((remove_city 1 emptyStore).cities.map City.name).Nodup ∧
    ((reset_cities emptyStore).cities.map City.name).Nodup ∧
    (((update_weather netNone 0 emptyStore).1).cities.map City.name).Nodup :=
  c7_name_unique_invariant netNone 0 1 "A" 1 2 emptyStore (by decide) (by decide)

/-- C8: after startup, no operation writes the `default_cities` table: add,
remove, reset and update all leave every `DefaultCity` row unchanged. -/
theorem c8_default_city_immutable (net : Rat → Rat → Option Response) (now : Nat)
    (i : Nat) (n : String) (la lo : Rat) (s : Store) :
    (add_city n la lo s).defaultCities = s.defaultCities ∧
    (remove_city i s).defaultCities = s.defaultCities ∧
    (reset_cities s).defaultCities = s.defaultCities ∧
    ((update_weather net now s).1).defaultCities = s.defaultCities := by
  refine ⟨?_, rfl, rfl, ?_⟩
  · by_cases h : (s.cities.any (fun c => c.name = n)) = true
    · rw [add_city_noop n la lo s h]
    · have hany : (s.cities.any (fun c => c.name = n)) = false := by
        rwa [Bool.not_eq_true] at h
      simp [add_city, hany]
  · by_cases he : (s.cities.filter (isStale now)).isEmpty <;> simp [update_weather, he]

/-- C9: the read path presents the stored cities as a permutation ordered by
temperature descending with every unset-temperature city after every city
that has one (ties unconstrained). -/
theorem c9_read_sorted (s : Store) :
    (read_root s).Perm (list_cities s) ∧ (read_root s).Pairwise specOrder := by
  constructor
  · exact List.mergeSort_perm s.cities _
  · have hs := List.sorted_mergeSort
      (fun a b c hab hbc => keyLe_trans (sortKey a) (sortKey b) (sortKey c) hab hbc)
      (fun a b => keyLe_total (sortKey a) (sortKey b))
      s.cities
    exact hs.imp (fun h => keyLe_imp_specOrder _ _ h)

/-- C10: the fan-out fetch produces exactly one result per eligible city, in
input order, and each result's id is the corresponding input city's id. -/
theorem c10_fanout_order (net : Rat → Rat → Option Response) (l : List City) :
    (fetchAll net l).map Prod.fst = l.map City.id ∧ (fetchAll net l).length = l.length := by
  constructor
  · rw [fetchAll, List.map_map]
    exact List.map_congr_left (fun c _ => fetch_weather_fst c.id _)
  · simp [fetchAll]

end WeatherApp
